import Mathlib

/-!
Verification of the VaR calculation engine (`var_calculator.py`) of the
risk analytics repository.

Modelling conventions:
* Python floats are modelled as rationals (`ℚ`); float arithmetic is modelled
  as exact rational arithmetic.
* External numeric-library primitives whose exact values the engine merely
  passes through (floating square root, the standard normal draws of the
  seeded global generator, the normality-test p-value, natural log and the
  chi-square cdf) are collected in a record `NumLib` and threaded as a
  parameter; theorems assume only the facts about them that the source code
  relies on (for example that the square root of `0` is `0` and that the
  square root of a positive number is positive).
* Fallible functions return `Except`: the `ValueError` raised for fewer than
  50 prices is `VarError.insufficientData`; the `ValueError` raised by
  `scipy.stats.normaltest` when fewer than 8 return observations exist
  (`skewtest is not valid with less than 8 samples`) is `VarError.statError`;
  the shape checks and the `ZeroDivisionError` of `backtest_var` get their
  own constructors.
-/

/-- External numeric-library primitives used by the engine.  `fsqrt` models
the floating point square root (used inside `np.std`, `np.sqrt(22)`,
`np.sqrt(252)` and the 1.5-power of the skewness denominator); `gauss s i`
models the i-th standard normal draw of the numpy global generator right
after `np.random.seed s`; `normaltest_p` models the p-value of
`scipy.stats.normaltest`; `logQ` models `np.log`; `chi2cdf` models
`scipy.stats.chi2.cdf(-, df=1)`. -/
structure NumLib where
  fsqrt : ℚ → ℚ
  gauss : ℕ → ℕ → ℚ
  normaltest_p : List ℚ → ℚ
  logQ : ℚ → ℚ
  chi2cdf : ℚ → ℚ

/-- Errors of `calculate_var`.  `insufficientData` is the
`ValueError("Insufficient data for VaR calculation ...")` raised when fewer
than 50 prices are supplied; `statError` is the distinct `ValueError` raised
by `scipy.stats.normaltest` when the derived return series has fewer than 8
observations. -/
inductive VarError where
  | insufficientData
  | statError
deriving DecidableEq

/-- Errors of `backtest_var`. -/
inductive BtError where
  | dimensionMismatch
  | divisionByZero
deriving DecidableEq

/-- Errors of `calculate_portfolio_var`: the explicit shape check; the
`ValueError` numpy raises when the requested percentile
`confidence_level * 100` lies outside `[0, 100]` (its `q` validation runs
before the data is indexed); and the `IndexError` numpy raises when
`np.percentile` is applied to an empty portfolio-return vector (a returns
matrix with zero rows). -/
inductive PortError where
  | dimensionMismatch
  | percentileRange
  | emptyPercentile
deriving DecidableEq

/-- `VarCalculator.calculate_returns`: the loop
`for i in range(1, len(prices)): if prices[i-1] != 0: append((prices[i]-prices[i-1])/prices[i-1])`
reindexed to `i` in `range(len(prices)-1)` with prior price `prices[i]`. -/
def calculate_returns (prices : List ℚ) : List ℚ :=
  if prices.length < 2 then []
  else (List.range (prices.length - 1)).filterMap (fun i =>
    if prices.getD i 0 ≠ 0 then
      some ((prices.getD (i+1) 0 - prices.getD i 0) / prices.getD i 0)
    else none)

/-- The same derivation phrased directly on consecutive pairs, as the spec
words it: iterate consecutive pairs, emit `(b - a) / a` whenever the prior
price `a` is nonzero, drop the pair otherwise. -/
def pairReturns (prices : List ℚ) : List ℚ :=
  (prices.zip prices.tail).filterMap (fun ab =>
    if ab.1 ≠ 0 then some ((ab.2 - ab.1) / ab.1) else none)

/-- `np.mean`: arithmetic mean. -/
def sampleMean (xs : List ℚ) : ℚ := xs.sum / (xs.length : ℚ)

/-- The radicand of `np.std(xs, ddof=1)`: sample variance with the Bessel
divisor `n - 1`. -/
def sampleVar (xs : List ℚ) : ℚ :=
  (xs.map (fun x => (x - sampleMean xs)^2)).sum / ((xs.length : ℚ) - 1)

/-- The interpolation step of `np.percentile` on an already sorted sample
`s`: take `rank = p/100 * (n-1)`, `k = floor rank`, `d = rank - k`, and
interpolate between the order statistics at `k` and `k+1`. -/
def interpolate (s : List ℚ) (p : ℚ) : ℚ :=
  let rank : ℚ := p / 100 * ((s.length : ℚ) - 1)
  let k : ℕ := (⌊rank⌋).toNat
  let d : ℚ := rank - (k : ℚ)
  let ak := s.getD k 0
  let ak1 := s.getD (k+1) ak
  ak + d * (ak1 - ak)

/-- `np.percentile(xs, p)` with the default linear interpolation: sort the
sample ascending, then interpolate. -/
def percentile (xs : List ℚ) (p : ℚ) : ℚ :=
  interpolate (List.insertionSort (· ≤ ·) xs) p

/-- Double-precision value printed by `scipy.stats.norm.ppf(0.05)`. -/
def z_05 : ℚ := -1.6448536269514722

/-- Double-precision value printed by `scipy.stats.norm.ppf(0.01)`. -/
def z_01 : ℚ := -2.3263478740408408

/-- The 10,000 Monte Carlo draws `np.random.normal(daily_mean, daily_std, 10000)`
taken right after `np.random.seed(42)`: each draw is
`mean + std * z` for a standard normal draw `z` of the freshly seeded
generator. -/
def mc_sims (lib : NumLib) (mean std : ℚ) : List ℚ :=
  (List.range 10000).map (fun i => mean + std * lib.gauss 42 i)

/-- The result record of `calculate_var` (the dict it returns, with the
source keys as field names; the key `sharpe_ratio` is rendered `sharpe`). -/
structure RiskReport where
  parametric_var_5 : ℚ
  parametric_var_1 : ℚ
  historical_var_5 : ℚ
  historical_var_1 : ℚ
  historical_cvar_5 : ℚ
  historical_cvar_1 : ℚ
  monte_carlo_var_5 : ℚ
  monte_carlo_var_1 : ℚ
  monte_carlo_cvar_5 : ℚ
  monte_carlo_cvar_1 : ℚ
  daily_mean : ℚ
  daily_std : ℚ
  monthly_mean : ℚ
  monthly_std : ℚ
  skewness : ℚ
  kurtosis : ℚ
  normality_p_value : ℚ
  sharpe : ℚ
  annual_return : ℚ
  data_points : ℕ

/-- The body of `calculate_var` after its two raising checks, translated
line by line from the source. -/
def mkReport (lib : NumLib) (returns : List ℚ) : RiskReport :=
  let daily_mean := sampleMean returns
  let daily_std := lib.fsqrt (sampleVar returns)
  let monthly_mean := daily_mean * 22
  let monthly_std := daily_std * lib.fsqrt 22
  let n : ℚ := (returns.length : ℚ)
  let m2 := (returns.map (fun x => (x - daily_mean)^2)).sum / n
  let m3 := (returns.map (fun x => (x - daily_mean)^3)).sum / n
  let m4 := (returns.map (fun x => (x - daily_mean)^4)).sum / n
  let skewness := m3 / (m2 * lib.fsqrt m2)
  let kurtosis := m4 / m2^2
  let normality_p_value := lib.normaltest_p returns
  let annual_return := (1 + daily_mean)^252 - 1
  let annual_std := daily_std * lib.fsqrt 252
  let sharpe := if annual_std ≠ 0 then (annual_return - 2/100) / annual_std else 0
  let parametric_var_5 := daily_mean - z_05 * daily_std
  let parametric_var_1 := daily_mean - z_01 * daily_std
  let historical_var_5 := percentile returns 5
  let historical_var_1 := percentile returns 1
  let returns_below_var_5 := returns.filter (fun r => r ≤ historical_var_5)
  let returns_below_var_1 := returns.filter (fun r => r ≤ historical_var_1)
  let historical_cvar_5 :=
    if 0 < returns_below_var_5.length then sampleMean returns_below_var_5
    else historical_var_5
  let historical_cvar_1 :=
    if 0 < returns_below_var_1.length then sampleMean returns_below_var_1
    else historical_var_1
  let mc_returns := mc_sims lib daily_mean daily_std
  let monte_carlo_var_5 := percentile mc_returns 5
  let monte_carlo_var_1 := percentile mc_returns 1
  let mc_below_var_5 := mc_returns.filter (fun r => r ≤ monte_carlo_var_5)
  let mc_below_var_1 := mc_returns.filter (fun r => r ≤ monte_carlo_var_1)
  let monte_carlo_cvar_5 :=
    if 0 < mc_below_var_5.length then sampleMean mc_below_var_5
    else monte_carlo_var_5
  let monte_carlo_cvar_1 :=
    if 0 < mc_below_var_1.length then sampleMean mc_below_var_1
    else monte_carlo_var_1
  { parametric_var_5 := parametric_var_5
    parametric_var_1 := parametric_var_1
    historical_var_5 := historical_var_5
    historical_var_1 := historical_var_1
    historical_cvar_5 := historical_cvar_5
    historical_cvar_1 := historical_cvar_1
    monte_carlo_var_5 := monte_carlo_var_5
    monte_carlo_var_1 := monte_carlo_var_1
    monte_carlo_cvar_5 := monte_carlo_cvar_5
    monte_carlo_cvar_1 := monte_carlo_cvar_1
    daily_mean := daily_mean
    daily_std := daily_std
    monthly_mean := monthly_mean
    monthly_std := monthly_std
    skewness := skewness
    kurtosis := kurtosis
    normality_p_value := normality_p_value
    sharpe := sharpe
    annual_return := annual_return
    data_points := returns.length }

/-- `VarCalculator.calculate_var`.  `rngState` models the state of the numpy
global random generator when the call starts; the source immediately
executes `np.random.seed(42)`, so the incoming state is discarded and every
draw comes from the generator freshly seeded with 42 (see `mc_sims`). -/
def calculate_var (lib : NumLib) (rngState : ℕ) (prices : List ℚ) :
    Except VarError RiskReport :=
  let _ := rngState
  if prices.length < 50 then .error .insufficientData
  else
    let returns := calculate_returns prices
    if returns.length < 8 then .error .statError
    else .ok (mkReport lib returns)

/-- A returns matrix as numpy sees it: a list of rows together with its
column count `shape[1]`, every row having exactly that length. -/
structure RMatrix where
  rows : List (List ℚ)
  ncols : ℕ
  wf : ∀ r ∈ rows, r.length = ncols

/-- The dot product `row @ weights` of one matrix row with the weight
vector. -/
def dotQ (row w : List ℚ) : ℚ := (List.zipWith (· * ·) row w).sum

/-- `VarCalculator.calculate_portfolio_var`.  After the explicit shape
check, `np.percentile` itself validates the requested percentile
`confidence_level * 100` against `[0, 100]` (raising
`ValueError: Percentiles must be in the range [0, 100]`) before it indexes
the data, and then raises `IndexError` on an empty vector. -/
def calculate_portfolio_var (weights : List ℚ) (m : RMatrix)
    (confidence_level : ℚ) : Except PortError ℚ :=
  if weights.length ≠ m.ncols then .error .dimensionMismatch
  else if confidence_level * 100 < 0 ∨ 100 < confidence_level * 100 then
    .error .percentileRange
  else if m.rows = [] then .error .emptyPercentile
  else .ok (percentile (m.rows.map (fun row => dotQ row weights))
    (confidence_level * 100))

/-- The Kupiec statistic: a finite value or the sentinel
`float('inf')`. -/
inductive KStat where
  | val (x : ℚ)
  | posInf
deriving DecidableEq

/-- The dict returned by `backtest_var`. -/
structure BacktestReport where
  violations : ℕ
  violation_rate : ℚ
  expected_violations : ℚ
  kupiec_statistic : KStat
  kupiec_p_value : ℚ
  model_adequate : Bool
deriving DecidableEq

/-- `sum(1 for r, var in zip(returns, var_estimates) if r < var)`. -/
def countViolations (returns var_estimates : List ℚ) : ℕ :=
  (returns.zip var_estimates).countP (fun rv => rv.1 < rv.2)

/-- The body of `backtest_var` after its raising checks.  In the
non-degenerate branch the Python float divisions
`violation_rate / confidence_level` and
`(1 - violation_rate) / (1 - confidence_level)` raise `ZeroDivisionError`
when `confidence_level` is `0.0` resp. `1.0` (the first division is
evaluated first, so exactly one of the two can fire; either way the call
fails with `ZeroDivisionError`). -/
def mkBacktestReport (lib : NumLib) (returns var_estimates : List ℚ)
    (confidence_level : ℚ) : Except BtError BacktestReport :=
  let violations := countViolations returns var_estimates
  let total_observations := returns.length
  let violation_rate : ℚ := (violations : ℚ) / (total_observations : ℚ)
  let expected_violations : ℚ := confidence_level * (total_observations : ℚ)
  if violations = 0 ∨ violations = total_observations then
    .ok { violations := violations
          violation_rate := violation_rate
          expected_violations := expected_violations
          kupiec_statistic := .posInf
          kupiec_p_value := 0
          model_adequate := decide ((0 : ℚ) > 5/100) }
  else if confidence_level = 0 ∨ 1 - confidence_level = 0 then
    .error .divisionByZero
  else
    let lr_stat : ℚ := 2 * ((violations : ℚ) *
        lib.logQ (violation_rate / confidence_level) +
      ((total_observations : ℚ) - (violations : ℚ)) *
        lib.logQ ((1 - violation_rate) / (1 - confidence_level)))
    let kupiec_p_value := 1 - lib.chi2cdf lr_stat
    .ok { violations := violations
          violation_rate := violation_rate
          expected_violations := expected_violations
          kupiec_statistic := .val lr_stat
          kupiec_p_value := kupiec_p_value
          model_adequate := decide (kupiec_p_value > 5/100) }

/-- `VarCalculator.backtest_var`.  The length check comes first; with equal
lengths but zero observations the line `violation_rate = violations /
total_observations` raises `ZeroDivisionError` before the Kupiec branch is
reached. -/
def backtest_var (lib : NumLib) (returns var_estimates : List ℚ)
    (confidence_level : ℚ) : Except BtError BacktestReport :=
  if returns.length ≠ var_estimates.length then .error .dimensionMismatch
  else if returns.length = 0 then .error .divisionByZero
  else mkBacktestReport lib returns var_estimates confidence_level

/-- A concrete instance of the library record used to evaluate theorems at
concrete inputs.  It satisfies every library fact the theorems assume: its
square root sends nonpositive numbers to `0` and positive numbers to a
positive number. -/
def testLib : NumLib where
  fsqrt := fun q => if q ≤ 0 then 0 else 1
  gauss := fun _ _ => 0
  normaltest_p := fun _ => 0
  logQ := fun _ => 0
  chi2cdf := fun _ => 0

/-! ### Helper lemmas about return derivation -/

theorem calc_returns_cons_cons (a b : ℚ) (t : List ℚ) :
    calculate_returns (a :: b :: t) =
      if a ≠ 0 then ((b - a) / a) :: calculate_returns (b :: t)
      else calculate_returns (b :: t) := by
  have hx : ¬ (a :: b :: t).length < 2 := by simp
  rw [calculate_returns, if_neg hx]
  have hlen : (a :: b :: t).length - 1 = t.length + 1 := by simp
  rw [hlen, List.range_succ_eq_map, List.filterMap_cons, List.filterMap_map]
  have hcomp : ((fun i => if (a :: b :: t).getD i 0 ≠ 0 then
        some (((a :: b :: t).getD (i+1) 0 - (a :: b :: t).getD i 0) /
          (a :: b :: t).getD i 0)
      else none) ∘ Nat.succ)
      = (fun i => if (b :: t).getD i 0 ≠ 0 then
        some (((b :: t).getD (i+1) 0 - (b :: t).getD i 0) / (b :: t).getD i 0)
      else none) := by
    funext i; rfl
  rw [hcomp]
  have htail : (List.range t.length).filterMap (fun i =>
      if (b :: t).getD i 0 ≠ 0 then
        some (((b :: t).getD (i+1) 0 - (b :: t).getD i 0) / (b :: t).getD i 0)
      else none) = calculate_returns (b :: t) := by
    cases t with
    | nil => simp [calculate_returns]
    | cons c u =>
      rw [calculate_returns, if_neg (by simp)]
      simp
  rw [htail]
  by_cases ha : a = 0 <;> simp [ha]

theorem pairReturns_cons_cons (a b : ℚ) (t : List ℚ) :
    pairReturns (a :: b :: t) =
      if a ≠ 0 then ((b - a) / a) :: pairReturns (b :: t)
      else pairReturns (b :: t) := by
  rw [pairReturns, pairReturns]
  simp only [List.tail_cons, List.zip_cons_cons, List.filterMap_cons]
  by_cases ha : a = 0 <;> simp [ha]

theorem calc_returns_eq_pair : ∀ p : List ℚ, calculate_returns p = pairReturns p
  | [] => by simp [calculate_returns, pairReturns]
  | [a] => by simp [calculate_returns, pairReturns]
  | a :: b :: t => by
      rw [calc_returns_cons_cons, pairReturns_cons_cons,
        calc_returns_eq_pair (b :: t)]

theorem calc_returns_length : ∀ p : List ℚ,
    (calculate_returns p).length =
      p.length - 1 - p.dropLast.countP (fun x => x = 0)
  | [] => by simp [calculate_returns]
  | [a] => by simp [calculate_returns]
  | a :: b :: t => by
      have ih := calc_returns_length (b :: t)
      have hk : (b :: t).dropLast.countP (fun x => decide (x = 0)) ≤ t.length := by
        have h1 := List.countP_le_length (p := fun x => decide (x = 0))
          (l := (b :: t).dropLast)
        have h2 : (b :: t).dropLast.length = t.length := by simp
        omega
      rw [calc_returns_cons_cons, List.dropLast_cons₂, List.countP_cons]
      by_cases ha : a = 0
      · rw [if_neg (by simp [ha])]
        rw [decide_eq_true ha]
        simp only [List.length_cons] at ih ⊢
        simp only [if_true]
        omega
      · rw [if_pos ha]
        rw [decide_eq_false ha]
        simp only [List.length_cons] at ih ⊢
        simp only [Bool.false_eq_true, if_false]
        omega

/-! ### Helper lemmas about means and percentiles -/

theorem sampleMean_le (xs : List ℚ) (hne : xs ≠ []) (v : ℚ)
    (h : ∀ x ∈ xs, x ≤ v) : sampleMean xs ≤ v := by
  have hlen : 0 < xs.length := List.length_pos.mpr hne
  have hsum : xs.sum ≤ xs.length • v := List.sum_le_card_nsmul xs v h
  rw [nsmul_eq_mul] at hsum
  have hlenQ : (0 : ℚ) < (xs.length : ℚ) := by exact_mod_cast hlen
  rw [sampleMean, div_le_iff₀ hlenQ]
  linarith

theorem sampleMean_eq_zero (xs : List ℚ) (h : ∀ x ∈ xs, x = 0) :
    sampleMean xs = 0 := by
  rw [sampleMean, List.sum_eq_zero h, zero_div]

theorem sampleVar_eq_zero (xs : List ℚ) (h : ∀ x ∈ xs, x = 0) :
    sampleVar xs = 0 := by
  rw [sampleVar, List.sum_eq_zero, zero_div]
  intro y hy
  obtain ⟨x, hx, rfl⟩ := List.mem_map.mp hy
  rw [h x hx, sampleMean_eq_zero xs h]
  ring

theorem le_interpolate (x : ℚ) (t : List ℚ)
    (hsort : List.Sorted (· ≤ ·) (x :: t))
    (p : ℚ) (hp0 : 0 ≤ p) (hp1 : p ≤ 100) : x ≤ interpolate (x :: t) p := by
  simp only [interpolate]
  set s := x :: t with hs
  set rank : ℚ := p / 100 * ((s.length : ℚ) - 1) with hrank
  set k : ℕ := (⌊rank⌋).toNat with hk
  have hspos : 0 < s.length := by rw [hs]; simp
  have hsQ : (1 : ℚ) ≤ (s.length : ℚ) := by exact_mod_cast hspos
  have hrank0 : 0 ≤ rank := by
    rw [hrank]
    apply mul_nonneg (div_nonneg hp0 (by norm_num))
    linarith
  have hrankle : rank ≤ (s.length : ℚ) - 1 := by
    have h1 : p / 100 ≤ 1 := (div_le_one (by norm_num : (0:ℚ) < 100)).mpr hp1
    have h0 : (0 : ℚ) ≤ (s.length : ℚ) - 1 := by linarith
    rw [hrank]
    calc p / 100 * ((s.length : ℚ) - 1) ≤ 1 * ((s.length : ℚ) - 1) :=
          mul_le_mul_of_nonneg_right h1 h0
      _ = (s.length : ℚ) - 1 := one_mul _
  have hfloor0 : 0 ≤ ⌊rank⌋ := Int.floor_nonneg.mpr hrank0
  have hkZ : (k : ℤ) = ⌊rank⌋ := Int.toNat_of_nonneg hfloor0
  have hkle : (k : ℚ) ≤ rank := by
    have h1 := Int.floor_le rank
    rw [← hkZ] at h1
    exact_mod_cast h1
  have hklt : k < s.length := by
    have h1 : (⌊rank⌋ : ℚ) ≤ (s.length : ℚ) - 1 :=
      le_trans (Int.floor_le rank) hrankle
    have h2 : ⌊rank⌋ ≤ (s.length : ℤ) - 1 := by exact_mod_cast h1
    omega
  have hd0 : 0 ≤ rank - (k : ℚ) := by linarith
  have hak_mem : s.getD k 0 ∈ s := by
    rw [List.getD_eq_getElem s 0 hklt]
    exact List.getElem_mem hklt
  have hx_ak : x ≤ s.getD k 0 := by
    rcases List.mem_cons.mp (hs ▸ hak_mem) with h | h
    · rw [h]
    · exact List.rel_of_sorted_cons hsort _ h
  have hak_le_ak1 : s.getD k 0 ≤ s.getD (k+1) (s.getD k 0) := by
    by_cases hk1 : k + 1 < s.length
    · rw [List.getD_eq_getElem s _ hk1, List.getD_eq_getElem s 0 hklt]
      have h2 := hsort.rel_get_of_lt (a := ⟨k, hklt⟩) (b := ⟨k+1, hk1⟩)
        (by simp [Fin.lt_def])
      simpa using h2
    · rw [@List.getD_eq_default _ s (s.getD k 0) (k+1) (by omega)]
  have h3 : 0 ≤ (rank - (k : ℚ)) * (s.getD (k+1) (s.getD k 0) - s.getD k 0) :=
    mul_nonneg hd0 (by linarith)
  linarith

theorem interpolate_const (s : List ℚ) (c : ℚ) (hne : s ≠ [])
    (hall : ∀ y ∈ s, y = c)
    (p : ℚ) (hp0 : 0 ≤ p) (hp1 : p ≤ 100) : interpolate s p = c := by
  simp only [interpolate]
  set rank : ℚ := p / 100 * ((s.length : ℚ) - 1) with hrank
  set k : ℕ := (⌊rank⌋).toNat with hk
  have hspos : 0 < s.length := List.length_pos.mpr hne
  have hsQ : (1 : ℚ) ≤ (s.length : ℚ) := by exact_mod_cast hspos
  have hrank0 : 0 ≤ rank := by
    rw [hrank]
    apply mul_nonneg (div_nonneg hp0 (by norm_num))
    linarith
  have hrankle : rank ≤ (s.length : ℚ) - 1 := by
    have h1 : p / 100 ≤ 1 := (div_le_one (by norm_num : (0:ℚ) < 100)).mpr hp1
    have h0 : (0 : ℚ) ≤ (s.length : ℚ) - 1 := by linarith
    rw [hrank]
    calc p / 100 * ((s.length : ℚ) - 1) ≤ 1 * ((s.length : ℚ) - 1) :=
          mul_le_mul_of_nonneg_right h1 h0
      _ = (s.length : ℚ) - 1 := one_mul _
  have hklt : k < s.length := by
    have h1 : (⌊rank⌋ : ℚ) ≤ (s.length : ℚ) - 1 :=
      le_trans (Int.floor_le rank) hrankle
    have h2 : ⌊rank⌋ ≤ (s.length : ℤ) - 1 := by exact_mod_cast h1
    omega
  have hak : s.getD k 0 = c := by
    rw [List.getD_eq_getElem s 0 hklt]
    exact hall _ (List.getElem_mem hklt)
  have hak1 : s.getD (k+1) (s.getD k 0) = c := by
    by_cases hk1 : k + 1 < s.length
    · rw [List.getD_eq_getElem s _ hk1]
      exact hall _ (List.getElem_mem hk1)
    · rw [@List.getD_eq_default _ s (s.getD k 0) (k+1) (by omega)]
      exact hak
  rw [hak1, hak]
  ring

theorem sortedList_ne_nil (xs : List ℚ) (hne : xs ≠ []) :
    List.insertionSort (· ≤ ·) xs ≠ [] := by
  intro h
  apply hne
  have hperm := List.perm_insertionSort (· ≤ ·) xs
  rw [h] at hperm
  exact hperm.symm.eq_nil

theorem exists_le_percentile (xs : List ℚ) (hne : xs ≠ []) (p : ℚ)
    (hp0 : 0 ≤ p) (hp1 : p ≤ 100) : ∃ y ∈ xs, y ≤ percentile xs p := by
  have hperm := List.perm_insertionSort (· ≤ ·) xs
  have hsort := List.sorted_insertionSort (· ≤ ·) xs
  obtain ⟨x, t, hcons⟩ := List.exists_cons_of_ne_nil (sortedList_ne_nil xs hne)
  have hx_mem : x ∈ xs := hperm.subset (by rw [hcons]; exact List.mem_cons_self x t)
  refine ⟨x, hx_mem, ?_⟩
  rw [percentile, hcons]
  exact le_interpolate x t (hcons ▸ hsort) p hp0 hp1

theorem percentile_const (xs : List ℚ) (c : ℚ) (hne : xs ≠ [])
    (hall : ∀ y ∈ xs, y = c)
    (p : ℚ) (hp0 : 0 ≤ p) (hp1 : p ≤ 100) : percentile xs p = c := by
  have hperm := List.perm_insertionSort (· ≤ ·) xs
  rw [percentile]
  apply interpolate_const _ _ (sortedList_ne_nil xs hne) _ _ hp0 hp1
  intro y hy
  exact hall y (hperm.subset hy)

/-- The CVaR step: for a nonempty sample, an observation at or below the
linear-interpolated percentile always exists, so the filtered list is
nonempty and the mean of the filtered list is at most the percentile. -/
theorem cvar_le_var (xs : List ℚ) (hne : xs ≠ []) (p : ℚ)
    (hp0 : 0 ≤ p) (hp1 : p ≤ 100) :
    xs.filter (fun x => x ≤ percentile xs p) ≠ [] ∧
    (if 0 < (xs.filter (fun x => x ≤ percentile xs p)).length
      then sampleMean (xs.filter (fun x => x ≤ percentile xs p))
      else percentile xs p) ≤ percentile xs p := by
  obtain ⟨y, hy_mem, hy_le⟩ := exists_le_percentile xs hne p hp0 hp1
  have hmem : y ∈ xs.filter (fun x => x ≤ percentile xs p) :=
    List.mem_filter.mpr ⟨hy_mem, by simpa using hy_le⟩
  have hne2 : xs.filter (fun x => x ≤ percentile xs p) ≠ [] :=
    List.ne_nil_of_mem hmem
  refine ⟨hne2, ?_⟩
  rw [if_pos (List.length_pos.mpr hne2)]
  apply sampleMean_le _ hne2
  intro x hx
  simpa using (List.mem_filter.mp hx).2

/-! ### Field values of the risk report -/

theorem mkReport_daily_mean (lib : NumLib) (rs : List ℚ) :
    (mkReport lib rs).daily_mean = sampleMean rs := rfl

theorem mkReport_daily_std (lib : NumLib) (rs : List ℚ) :
    (mkReport lib rs).daily_std = lib.fsqrt (sampleVar rs) := rfl

theorem mkReport_parametric_var_5 (lib : NumLib) (rs : List ℚ) :
    (mkReport lib rs).parametric_var_5 =
      sampleMean rs - z_05 * lib.fsqrt (sampleVar rs) := rfl

theorem mkReport_parametric_var_1 (lib : NumLib) (rs : List ℚ) :
    (mkReport lib rs).parametric_var_1 =
      sampleMean rs - z_01 * lib.fsqrt (sampleVar rs) := rfl

theorem mkReport_historical_var_5 (lib : NumLib) (rs : List ℚ) :
    (mkReport lib rs).historical_var_5 = percentile rs 5 := rfl

theorem mkReport_historical_var_1 (lib : NumLib) (rs : List ℚ) :
    (mkReport lib rs).historical_var_1 = percentile rs 1 := rfl

theorem mkReport_historical_cvar_5 (lib : NumLib) (rs : List ℚ) :
    (mkReport lib rs).historical_cvar_5 =
      if 0 < (rs.filter (fun r => r ≤ percentile rs 5)).length
      then sampleMean (rs.filter (fun r => r ≤ percentile rs 5))
      else percentile rs 5 := rfl

theorem mkReport_historical_cvar_1 (lib : NumLib) (rs : List ℚ) :
    (mkReport lib rs).historical_cvar_1 =
      if 0 < (rs.filter (fun r => r ≤ percentile rs 1)).length
      then sampleMean (rs.filter (fun r => r ≤ percentile rs 1))
      else percentile rs 1 := rfl

theorem mkReport_monte_carlo_var_5 (lib : NumLib) (rs : List ℚ) :
    (mkReport lib rs).monte_carlo_var_5 =
      percentile (mc_sims lib (sampleMean rs) (lib.fsqrt (sampleVar rs))) 5 := rfl

theorem mkReport_monte_carlo_var_1 (lib : NumLib) (rs : List ℚ) :
    (mkReport lib rs).monte_carlo_var_1 =
      percentile (mc_sims lib (sampleMean rs) (lib.fsqrt (sampleVar rs))) 1 := rfl

theorem mkReport_monte_carlo_cvar_5 (lib : NumLib) (rs : List ℚ) :
    (mkReport lib rs).monte_carlo_cvar_5 =
      (if 0 < ((mc_sims lib (sampleMean rs) (lib.fsqrt (sampleVar rs))).filter
          (fun r => r ≤ percentile (mc_sims lib (sampleMean rs) (lib.fsqrt (sampleVar rs))) 5)).length
      then sampleMean ((mc_sims lib (sampleMean rs) (lib.fsqrt (sampleVar rs))).filter
          (fun r => r ≤ percentile (mc_sims lib (sampleMean rs) (lib.fsqrt (sampleVar rs))) 5))
      else percentile (mc_sims lib (sampleMean rs) (lib.fsqrt (sampleVar rs))) 5) := by
  dsimp only [mkReport]

theorem mkReport_monte_carlo_cvar_1 (lib : NumLib) (rs : List ℚ) :
    (mkReport lib rs).monte_carlo_cvar_1 =
      (if 0 < ((mc_sims lib (sampleMean rs) (lib.fsqrt (sampleVar rs))).filter
          (fun r => r ≤ percentile (mc_sims lib (sampleMean rs) (lib.fsqrt (sampleVar rs))) 1)).length
      then sampleMean ((mc_sims lib (sampleMean rs) (lib.fsqrt (sampleVar rs))).filter
          (fun r => r ≤ percentile (mc_sims lib (sampleMean rs) (lib.fsqrt (sampleVar rs))) 1))
      else percentile (mc_sims lib (sampleMean rs) (lib.fsqrt (sampleVar rs))) 1) := by
  dsimp only [mkReport]

theorem mkReport_sharpe (lib : NumLib) (rs : List ℚ) :
    (mkReport lib rs).sharpe =
      if lib.fsqrt (sampleVar rs) * lib.fsqrt 252 ≠ 0
      then ((1 + sampleMean rs)^252 - 1 - 2/100) /
        (lib.fsqrt (sampleVar rs) * lib.fsqrt 252)
      else 0 := rfl

theorem mkReport_data_points (lib : NumLib) (rs : List ℚ) :
    (mkReport lib rs).data_points = rs.length := rfl

theorem mc_sims_length (lib : NumLib) (mean std : ℚ) :
    (mc_sims lib mean std).length = 10000 := by
  simp [mc_sims]

theorem mc_sims_ne_nil (lib : NumLib) (mean std : ℚ) :
    mc_sims lib mean std ≠ [] := by
  intro h
  have := mc_sims_length lib mean std
  rw [h] at this
  simp at this

/-! ### Inversion of the branches of `calculate_var` -/

theorem calculate_var_ok_inv {lib : NumLib} {st : ℕ} {p : List ℚ}
    {r : RiskReport} (h : calculate_var lib st p = .ok r) :
    r = mkReport lib (calculate_returns p) ∧ 50 ≤ p.length ∧
      8 ≤ (calculate_returns p).length := by
  simp only [calculate_var] at h
  by_cases h1 : p.length < 50
  · rw [if_pos h1] at h
    exact absurd h (by simp)
  · rw [if_neg h1] at h
    by_cases h2 : (calculate_returns p).length < 8
    · rw [if_pos h2] at h
      exact absurd h (by simp)
    · rw [if_neg h2] at h
      have h3 : mkReport lib (calculate_returns p) = r := by
        injection h
      exact ⟨h3.symm, by omega, by omega⟩

theorem calculate_var_ok_of_lengths {lib : NumLib} {st : ℕ} {p : List ℚ}
    (h1 : 50 ≤ p.length) (h2 : 8 ≤ (calculate_returns p).length) :
    calculate_var lib st p = .ok (mkReport lib (calculate_returns p)) := by
  simp only [calculate_var]
  rw [if_neg (by omega), if_neg (by omega)]

/-! ### Claim theorems -/

/-- C3: `calculate_var` fails with the insufficient-data error exactly on
price series of fewer than 50 elements: every series of length 49 fails
with it, and no series of length 50 produces that error (the only other
possible failure is the distinct normaltest error). -/
theorem insufficient_data_at_49_not_at_50 (lib : NumLib) (st : ℕ) (p : List ℚ) :
    (p.length = 49 → calculate_var lib st p = .error .insufficientData) ∧
    (p.length = 50 → calculate_var lib st p ≠ .error .insufficientData) := by
  constructor
  · intro h49
    simp only [calculate_var]
    rw [if_pos (by omega)]
  · intro h50 hcontra
    simp only [calculate_var] at hcontra
    rw [if_neg (by omega)] at hcontra
    by_cases h2 : (calculate_returns p).length < 8
    · rw [if_pos h2] at hcontra
      simp at hcontra
    · rw [if_neg h2] at hcontra
      simp at hcontra

/-- Witness for C3 at the concrete series of 49 resp. 50 unit prices. -/
theorem insufficient_data_at_49_not_at_50_witness :
    (List.replicate 49 (1:ℚ)).length = 49 ∧
    calculate_var testLib 0 (List.replicate 49 (1:ℚ)) =
      .error .insufficientData ∧
    (List.replicate 50 (1:ℚ)).length = 50 ∧
    calculate_var testLib 0 (List.replicate 50 (1:ℚ)) ≠
      .error .insufficientData :=
  ⟨by simp, (insufficient_data_at_49_not_at_50 testLib 0 _).1 (by simp),
   by simp, (insufficient_data_at_49_not_at_50 testLib 0 _).2 (by simp)⟩

/-- C2 (amended): the insufficient-data error is governed by the raw price
count, not by the count of usable return observations: it is raised iff
`len(prices) < 50`.  The second half of the claim stands: with at least 50
usable return observations the call succeeds (such a series necessarily has
at least 51 prices). -/
theorem insufficient_data_iff_price_count (lib : NumLib) (st : ℕ) (p : List ℚ) :
    (calculate_var lib st p = .error .insufficientData ↔ p.length < 50) ∧
    (50 ≤ (calculate_returns p).length →
      calculate_var lib st p = .ok (mkReport lib (calculate_returns p))) := by
  constructor
  · constructor
    · intro h
      by_contra hlen
      simp only [calculate_var] at h
      rw [if_neg hlen] at h
      by_cases h2 : (calculate_returns p).length < 8
      · rw [if_pos h2] at h
        simp at h
      · rw [if_neg h2] at h
        simp at h
    · intro hlen
      simp only [calculate_var]
      rw [if_pos hlen]
  · intro hret
    have hlen := calc_returns_length p
    exact calculate_var_ok_of_lengths (by omega) (by omega)

/-- The 50-price series starting with a single zero price: only 48 usable
return observations survive derivation. -/
def cexZeroStart : List ℚ := 0 :: List.replicate 49 1

/-- C2 counterexample: `cexZeroStart` has 50 prices but only 48 usable
return observations (fewer than 50), yet `calculate_var` succeeds rather
than raising the insufficient-data error, refuting the claim that the error
is raised exactly when fewer than 50 usable returns remain. -/
theorem insufficient_data_claim_false :
    cexZeroStart.length = 50 ∧
    (calculate_returns cexZeroStart).length = 48 ∧
    calculate_var testLib 0 cexZeroStart =
      .ok (mkReport testLib (calculate_returns cexZeroStart)) := by
  have h48 : (calculate_returns cexZeroStart).length = 48 := by decide
  exact ⟨by decide, h48, calculate_var_ok_of_lengths (by decide) (by omega)⟩

/-- Witness for the amended C2 at a series of 51 unit prices (50 usable
returns). -/
theorem insufficient_data_iff_price_count_witness :
    50 ≤ (calculate_returns (List.replicate 51 (1:ℚ))).length ∧
    (calculate_var testLib 0 (List.replicate 51 (1:ℚ)) =
        .error .insufficientData ↔ (List.replicate 51 (1:ℚ)).length < 50) ∧
    calculate_var testLib 0 (List.replicate 51 (1:ℚ)) =
      .ok (mkReport testLib (calculate_returns (List.replicate 51 (1:ℚ)))) :=
  ⟨by decide, (insufficient_data_iff_price_count testLib 0 _).1,
   (insufficient_data_iff_price_count testLib 0 _).2 (by decide)⟩

/-- C6: `calculate_var` is deterministic across calls: np.random.seed(42)
discards whatever state the global generator had, so the result does not
depend on the incoming generator state, and the Monte Carlo step always
consists of exactly 10,000 draws of the freshly seeded generator. -/
theorem calculate_var_deterministic (lib : NumLib) (s1 s2 : ℕ) (p : List ℚ) :
    calculate_var lib s1 p = calculate_var lib s2 p ∧
    ∀ mean std : ℚ, (mc_sims lib mean std).length = 10000 :=
  ⟨rfl, fun mean std => mc_sims_length lib mean std⟩

/-- C1 (amended): for every accepted price series whose reported daily
standard deviation is positive, the parametric VaR ordering produced by the
code is `daily_mean < parametric_var_5 < parametric_var_1`: since the code
computes `daily_mean - z_c * daily_std` and both normal quantiles `z_c` are
negative with `z_01 < z_05`, both parametric VaR figures sit above the
mean and the 1% figure is the largest. -/
theorem parametric_ordering (lib : NumLib) (st : ℕ) (p : List ℚ)
    (r : RiskReport) (hok : calculate_var lib st p = .ok r)
    (hsd : 0 < r.daily_std) :
    r.daily_mean < r.parametric_var_5 ∧
    r.parametric_var_5 < r.parametric_var_1 := by
  obtain ⟨hr, -, -⟩ := calculate_var_ok_inv hok
  subst hr
  rw [mkReport_daily_std] at hsd
  rw [mkReport_daily_mean, mkReport_parametric_var_5, mkReport_parametric_var_1]
  constructor
  · have hz : z_05 < 0 := by norm_num [z_05]
    have hpos := mul_pos (neg_pos.mpr hz) hsd
    linarith
  · have hz : z_01 < z_05 := by norm_num [z_01, z_05]
    have hpos := mul_pos (sub_pos.mpr hz) hsd
    nlinarith

/-- The 50-price series of 49 unit prices followed by a single price of 2:
its 49 derived returns are 48 zeros and one `1`, so the sample variance is
`1/49 > 0`. -/
def cexJump : List ℚ := List.replicate 49 1 ++ [2]

set_option maxRecDepth 400000 in
/-- C1 counterexample: at `cexJump` (accepted, positive reported standard
deviation) the claimed ordering `parametric_var_1 < parametric_var_5` is
false — the code produces the reversed ordering.  The refutation does not
depend on the concrete library record: by the amended theorem the reversed
ordering holds for every library whose square root is positive here. -/
theorem parametric_ordering_claim_false :
    calculate_var testLib 0 cexJump =
      .ok (mkReport testLib (calculate_returns cexJump)) ∧
    0 < (mkReport testLib (calculate_returns cexJump)).daily_std ∧
    ¬ ((mkReport testLib (calculate_returns cexJump)).parametric_var_1 <
        (mkReport testLib (calculate_returns cexJump)).parametric_var_5) := by
  refine ⟨calculate_var_ok_of_lengths (by decide) (by decide), ?_, ?_⟩
  · rw [mkReport_daily_std]
    with_unfolding_all decide
  · rw [mkReport_parametric_var_1, mkReport_parametric_var_5]
    with_unfolding_all decide

set_option maxRecDepth 400000 in
/-- Witness for the amended C1 at `cexJump`. -/
theorem parametric_ordering_witness :
    calculate_var testLib 0 cexJump =
      .ok (mkReport testLib (calculate_returns cexJump)) ∧
    0 < (mkReport testLib (calculate_returns cexJump)).daily_std ∧
    (mkReport testLib (calculate_returns cexJump)).daily_mean <
      (mkReport testLib (calculate_returns cexJump)).parametric_var_5 ∧
    (mkReport testLib (calculate_returns cexJump)).parametric_var_5 <
      (mkReport testLib (calculate_returns cexJump)).parametric_var_1 := by
  have hok : calculate_var testLib 0 cexJump =
      .ok (mkReport testLib (calculate_returns cexJump)) :=
    calculate_var_ok_of_lengths (by decide) (by decide)
  have hsd : 0 < (mkReport testLib (calculate_returns cexJump)).daily_std := by
    rw [mkReport_daily_std]
    with_unfolding_all decide
  obtain ⟨h1, h2⟩ := parametric_ordering testLib 0 cexJump _ hok hsd
  exact ⟨hok, hsd, h1, h2⟩

/-- C5: return derivation is total and faithful to the consecutive-pair
description: inputs of length < 2 give the empty sequence (not an error);
in general the output is exactly the pairwise description of the spec (the
value `(p[i]-p[i-1])/p[i-1]` for each consecutive pair with nonzero prior
price, in order, zero-prior pairs dropped entirely); and for inputs of
length `n ≥ 2` the output length is `n - 1 - k` where `k` counts the
zero-valued prior prices. -/
theorem returns_characterization (p : List ℚ) :
    (p.length < 2 → calculate_returns p = []) ∧
    calculate_returns p = pairReturns p ∧
    (2 ≤ p.length →
      (calculate_returns p).length =
        p.length - 1 - p.dropLast.countP (fun x => x = 0)) := by
  refine ⟨?_, calc_returns_eq_pair p, fun _ => calc_returns_length p⟩
  intro h
  rw [calculate_returns, if_pos h]

/-- Witness for C5 at `[2, 0, 3, 4]`: the zero-prior pair is dropped, the
output is `[-1, 1/3]` of length `4 - 1 - 1`. -/
theorem returns_characterization_witness :
    2 ≤ ([2, 0, 3, 4] : List ℚ).length ∧
    calculate_returns ([2, 0, 3, 4] : List ℚ) =
      pairReturns ([2, 0, 3, 4] : List ℚ) ∧
    (calculate_returns ([2, 0, 3, 4] : List ℚ)).length =
      ([2, 0, 3, 4] : List ℚ).length - 1 -
        (([2, 0, 3, 4] : List ℚ).dropLast.countP (fun x => x = 0)) :=
  ⟨by decide, (returns_characterization _).2.1,
   (returns_characterization _).2.2 (by decide)⟩

/-- Every value in the return series derived from a constant price series
is zero (regardless of the constant; for a zero constant the series is
empty). -/
theorem mem_calc_returns_replicate (n : ℕ) (c : ℚ) (x : ℚ)
    (hx : x ∈ calculate_returns (List.replicate n c)) : x = 0 := by
  rw [calc_returns_eq_pair, pairReturns] at hx
  obtain ⟨ab, hab, heq⟩ := List.mem_filterMap.mp hx
  obtain ⟨a, b⟩ := ab
  obtain ⟨ha, hb⟩ := List.of_mem_zip hab
  have ha2 : a = c := List.eq_of_mem_replicate ha
  have hb2 : b = c := List.eq_of_mem_replicate (List.tail_subset _ hb)
  rw [ha2, hb2] at heq
  by_cases hc0 : c = 0
  · rw [hc0] at heq
    simp at heq
  · rw [if_pos hc0] at heq
    have hval := Option.some.inj heq
    rw [← hval]
    simp

/-- The return series of a constant nonzero price series has full length
`n - 1`: no pair is dropped. -/
theorem calc_returns_replicate_length (n : ℕ) (c : ℚ) (hc : c ≠ 0) :
    (calculate_returns (List.replicate n c)).length = n - 1 := by
  rw [calc_returns_length]
  have h0 : (List.replicate n c).dropLast.countP (fun x => x = 0) = 0 := by
    apply List.countP_eq_zero.mpr
    intro a ha
    have ha2 : a = c := List.eq_of_mem_replicate (List.dropLast_subset _ ha)
    simp [ha2, hc]
  rw [h0, List.length_replicate]
  omega

/-- C7: on a constant positive price series of length at least 50 the call
succeeds; all derived returns are zero; the reported daily standard
deviation is 0; the Sharpe ratio is 0 (the division is replaced by 0 when
the annualized standard deviation vanishes); and the historical and Monte
Carlo VaR and CVaR at both levels all equal 0.  The only library fact used
is that the floating square root of 0 is 0. -/
theorem constant_series_report (lib : NumLib) (st : ℕ) (c : ℚ) (n : ℕ)
    (hc : 0 < c) (hn : 50 ≤ n) (hs0 : lib.fsqrt 0 = 0) :
    calculate_var lib st (List.replicate n c) =
      .ok (mkReport lib (calculate_returns (List.replicate n c))) ∧
    (∀ x ∈ calculate_returns (List.replicate n c), x = 0) ∧
    (mkReport lib (calculate_returns (List.replicate n c))).daily_std = 0 ∧
    (mkReport lib (calculate_returns (List.replicate n c))).sharpe = 0 ∧
    (mkReport lib (calculate_returns (List.replicate n c))).historical_var_5 = 0 ∧
    (mkReport lib (calculate_returns (List.replicate n c))).historical_var_1 = 0 ∧
    (mkReport lib (calculate_returns (List.replicate n c))).historical_cvar_5 = 0 ∧
    (mkReport lib (calculate_returns (List.replicate n c))).historical_cvar_1 = 0 ∧
    (mkReport lib (calculate_returns (List.replicate n c))).monte_carlo_var_5 = 0 ∧
    (mkReport lib (calculate_returns (List.replicate n c))).monte_carlo_var_1 = 0 ∧
    (mkReport lib (calculate_returns (List.replicate n c))).monte_carlo_cvar_5 = 0 ∧
    (mkReport lib (calculate_returns (List.replicate n c))).monte_carlo_cvar_1 = 0 := by
  have hall : ∀ x ∈ calculate_returns (List.replicate n c), x = 0 :=
    fun x hx => mem_calc_returns_replicate n c x hx
  have hlenr : (calculate_returns (List.replicate n c)).length = n - 1 :=
    calc_returns_replicate_length n c (ne_of_gt hc)
  have hne : calculate_returns (List.replicate n c) ≠ [] := by
    intro h
    rw [h] at hlenr
    simp at hlenr
    omega
  have hmean : sampleMean (calculate_returns (List.replicate n c)) = 0 :=
    sampleMean_eq_zero _ hall
  have hvar : sampleVar (calculate_returns (List.replicate n c)) = 0 :=
    sampleVar_eq_zero _ hall
  have hp5 : percentile (calculate_returns (List.replicate n c)) 5 = 0 :=
    percentile_const _ 0 hne hall 5 (by norm_num) (by norm_num)
  have hp1 : percentile (calculate_returns (List.replicate n c)) 1 = 0 :=
    percentile_const _ 0 hne hall 1 (by norm_num) (by norm_num)
  have hallmc : ∀ x ∈ mc_sims lib 0 0, x = 0 := by
    intro x hx
    rw [mc_sims] at hx
    obtain ⟨i, hi, rfl⟩ := List.mem_map.mp hx
    simp
  have hmc5 : percentile (mc_sims lib 0 0) 5 = 0 :=
    percentile_const _ 0 (mc_sims_ne_nil lib 0 0) hallmc 5 (by norm_num) (by norm_num)
  have hmc1 : percentile (mc_sims lib 0 0) 1 = 0 :=
    percentile_const _ 0 (mc_sims_ne_nil lib 0 0) hallmc 1 (by norm_num) (by norm_num)
  refine ⟨?_, hall, ?_, ?_, ?_, ?_, ?_, ?_, ?_, ?_, ?_, ?_⟩
  · exact calculate_var_ok_of_lengths (by rw [List.length_replicate]; omega)
      (by rw [hlenr]; omega)
  · rw [mkReport_daily_std, hvar, hs0]
  · rw [mkReport_sharpe, hvar, hs0]
    simp
  · rw [mkReport_historical_var_5]
    exact hp5
  · rw [mkReport_historical_var_1]
    exact hp1
  · rw [mkReport_historical_cvar_5]
    split_ifs with h
    · exact sampleMean_eq_zero _ (fun x hx => hall x (List.mem_filter.mp hx).1)
    · exact hp5
  · rw [mkReport_historical_cvar_1]
    split_ifs with h
    · exact sampleMean_eq_zero _ (fun x hx => hall x (List.mem_filter.mp hx).1)
    · exact hp1
  · rw [mkReport_monte_carlo_var_5, hmean, hvar, hs0]
    exact hmc5
  · rw [mkReport_monte_carlo_var_1, hmean, hvar, hs0]
    exact hmc1
  · rw [mkReport_monte_carlo_cvar_5, hmean, hvar, hs0]
    split_ifs with h
    · exact sampleMean_eq_zero _ (fun x hx => hallmc x (List.mem_filter.mp hx).1)
    · exact hmc5
  · rw [mkReport_monte_carlo_cvar_1, hmean, hvar, hs0]
    split_ifs with h
    · exact sampleMean_eq_zero _ (fun x hx => hallmc x (List.mem_filter.mp hx).1)
    · exact hmc1

/-- Witness for C7 at the constant series of 50 unit prices. -/
theorem constant_series_report_witness :
    (0 : ℚ) < 1 ∧ 50 ≤ 50 ∧ testLib.fsqrt 0 = 0 ∧
    (calculate_var testLib 0 (List.replicate 50 (1:ℚ)) =
      .ok (mkReport testLib (calculate_returns (List.replicate 50 (1:ℚ)))) ∧
    (∀ x ∈ calculate_returns (List.replicate 50 (1:ℚ)), x = 0) ∧
    (mkReport testLib (calculate_returns (List.replicate 50 (1:ℚ)))).daily_std = 0 ∧
    (mkReport testLib (calculate_returns (List.replicate 50 (1:ℚ)))).sharpe = 0 ∧
    (mkReport testLib (calculate_returns (List.replicate 50 (1:ℚ)))).historical_var_5 = 0 ∧
    (mkReport testLib (calculate_returns (List.replicate 50 (1:ℚ)))).historical_var_1 = 0 ∧
    (mkReport testLib (calculate_returns (List.replicate 50 (1:ℚ)))).historical_cvar_5 = 0 ∧
    (mkReport testLib (calculate_returns (List.replicate 50 (1:ℚ)))).historical_cvar_1 = 0 ∧
    (mkReport testLib (calculate_returns (List.replicate 50 (1:ℚ)))).monte_carlo_var_5 = 0 ∧
    (mkReport testLib (calculate_returns (List.replicate 50 (1:ℚ)))).monte_carlo_var_1 = 0 ∧
    (mkReport testLib (calculate_returns (List.replicate 50 (1:ℚ)))).monte_carlo_cvar_5 = 0 ∧
    (mkReport testLib (calculate_returns (List.replicate 50 (1:ℚ)))).monte_carlo_cvar_1 = 0) :=
  ⟨by norm_num, by norm_num, by simp [testLib],
   constant_series_report testLib 0 1 50 (by norm_num) (by norm_num)
     (by simp [testLib])⟩

/-- C9: for every accepted price series the reported conditional VaR never
exceeds the matching VaR under both the historical and the Monte Carlo
method at both levels, and the degenerate fallback branch (CVaR set to the
VaR when no observation qualifies) is unreachable: the filtered lists are
nonempty, because a minimum element is always at or below the
linear-interpolated percentile. -/
theorem cvar_never_exceeds_var (lib : NumLib) (st : ℕ) (p : List ℚ)
    (r : RiskReport) (hok : calculate_var lib st p = .ok r) :
    (r.historical_cvar_5 ≤ r.historical_var_5 ∧
     r.historical_cvar_1 ≤ r.historical_var_1 ∧
     r.monte_carlo_cvar_5 ≤ r.monte_carlo_var_5 ∧
     r.monte_carlo_cvar_1 ≤ r.monte_carlo_var_1) ∧
    ((calculate_returns p).filter
        (fun x => x ≤ percentile (calculate_returns p) 5) ≠ [] ∧
     (calculate_returns p).filter
        (fun x => x ≤ percentile (calculate_returns p) 1) ≠ [] ∧
     (mc_sims lib (sampleMean (calculate_returns p))
         (lib.fsqrt (sampleVar (calculate_returns p)))).filter
        (fun x => x ≤ percentile (mc_sims lib (sampleMean (calculate_returns p))
          (lib.fsqrt (sampleVar (calculate_returns p)))) 5) ≠ [] ∧
     (mc_sims lib (sampleMean (calculate_returns p))
         (lib.fsqrt (sampleVar (calculate_returns p)))).filter
        (fun x => x ≤ percentile (mc_sims lib (sampleMean (calculate_returns p))
          (lib.fsqrt (sampleVar (calculate_returns p)))) 1) ≠ []) := by
  obtain ⟨hr, -, h8⟩ := calculate_var_ok_inv hok
  subst hr
  have hne : calculate_returns p ≠ [] := by
    intro h
    rw [h] at h8
    simp at h8
  have h5 := cvar_le_var (calculate_returns p) hne 5 (by norm_num) (by norm_num)
  have h1 := cvar_le_var (calculate_returns p) hne 1 (by norm_num) (by norm_num)
  have hm5 := cvar_le_var
    (mc_sims lib (sampleMean (calculate_returns p))
      (lib.fsqrt (sampleVar (calculate_returns p))))
    (mc_sims_ne_nil lib _ _) 5 (by norm_num) (by norm_num)
  have hm1 := cvar_le_var
    (mc_sims lib (sampleMean (calculate_returns p))
      (lib.fsqrt (sampleVar (calculate_returns p))))
    (mc_sims_ne_nil lib _ _) 1 (by norm_num) (by norm_num)
  refine ⟨⟨?_, ?_, ?_, ?_⟩, h5.1, h1.1, hm5.1, hm1.1⟩
  · rw [mkReport_historical_cvar_5, mkReport_historical_var_5]
    exact h5.2
  · rw [mkReport_historical_cvar_1, mkReport_historical_var_1]
    exact h1.2
  · rw [mkReport_monte_carlo_cvar_5, mkReport_monte_carlo_var_5]
    exact hm5.2
  · rw [mkReport_monte_carlo_cvar_1, mkReport_monte_carlo_var_1]
    exact hm1.2

set_option maxRecDepth 2000 in
/-- Witness for C9 at `cexJump`. -/
theorem cvar_never_exceeds_var_witness :
    calculate_var testLib 0 cexJump =
      .ok (mkReport testLib (calculate_returns cexJump)) ∧
    ((mkReport testLib (calculate_returns cexJump)).historical_cvar_5 ≤
       (mkReport testLib (calculate_returns cexJump)).historical_var_5 ∧
     (mkReport testLib (calculate_returns cexJump)).historical_cvar_1 ≤
       (mkReport testLib (calculate_returns cexJump)).historical_var_1 ∧
     (mkReport testLib (calculate_returns cexJump)).monte_carlo_cvar_5 ≤
       (mkReport testLib (calculate_returns cexJump)).monte_carlo_var_5 ∧
     (mkReport testLib (calculate_returns cexJump)).monte_carlo_cvar_1 ≤
       (mkReport testLib (calculate_returns cexJump)).monte_carlo_var_1) := by
  have hok : calculate_var testLib 0 cexJump =
      .ok (mkReport testLib (calculate_returns cexJump)) :=
    calculate_var_ok_of_lengths (by decide) (by decide)
  exact ⟨hok, (cvar_never_exceeds_var testLib 0 cexJump _ hok).1⟩

/-! ### Backtest and portfolio claims -/

theorem countViolations_le_length (ret ve : List ℚ) :
    countViolations ret ve ≤ ret.length := by
  have h1 := List.countP_le_length (p := fun rv => decide (rv.1 < rv.2))
    (l := ret.zip ve)
  have h2 : (ret.zip ve).length ≤ ret.length := by
    rw [List.length_zip]
    omega
  unfold countViolations
  omega

/-- C4: whenever the two input series have equal length `n ≥ 1` and the
violation count is `0` or `n`, `backtest_var` raises nothing (in
particular this branch performs no division by the confidence level) and
reports the sentinel values: Kupiec statistic positive infinity, p-value
`0.0`, and `model_adequate = False` (because `0.0 > 0.05` is false). -/
theorem kupiec_degenerate (lib : NumLib) (ret ve : List ℚ) (c : ℚ)
    (hlen : ret.length = ve.length) (hn : 1 ≤ ret.length)
    (hdeg : countViolations ret ve = 0 ∨ countViolations ret ve = ret.length) :
    backtest_var lib ret ve c = .ok
      { violations := countViolations ret ve
        violation_rate := (countViolations ret ve : ℚ) / (ret.length : ℚ)
        expected_violations := c * (ret.length : ℚ)
        kupiec_statistic := .posInf
        kupiec_p_value := 0
        model_adequate := false } := by
  have hfalse : decide ((0:ℚ) > 5/100) = false := by with_unfolding_all decide
  simp only [backtest_var, mkBacktestReport]
  rw [if_neg (by omega), if_neg (by omega), if_pos hdeg, hfalse]

/-- The spec test vector: ten returns of -10% against ten VaR estimates of
-1%. -/
def kupRet : List ℚ := List.replicate 10 (-1/10)

/-- The matching VaR estimates of the spec test vector. -/
def kupVe : List ℚ := List.replicate 10 (-1/100)

/-- Witness for C4 at the spec test vector: all ten observations violate,
and the degenerate sentinel report is produced with `violations = 10`. -/
theorem kupiec_degenerate_witness :
    kupRet.length = kupVe.length ∧ 1 ≤ kupRet.length ∧
    countViolations kupRet kupVe = 10 ∧
    countViolations kupRet kupVe = kupRet.length ∧
    backtest_var testLib kupRet kupVe (1/20) = .ok
      { violations := countViolations kupRet kupVe
        violation_rate := (countViolations kupRet kupVe : ℚ) / (kupRet.length : ℚ)
        expected_violations := (1/20) * (kupRet.length : ℚ)
        kupiec_statistic := .posInf
        kupiec_p_value := 0
        model_adequate := false } := by
  have h10 : countViolations kupRet kupVe = 10 := by with_unfolding_all decide
  refine ⟨by decide, by decide, h10, by rw [h10]; decide, ?_⟩
  exact kupiec_degenerate testLib kupRet kupVe (1/20) (by decide) (by decide)
    (Or.inr (by rw [h10]; decide))

/-- C10: with two empty input sequences `backtest_var` passes the equal
length check, so it neither raises the dimension-mismatch error nor returns
a report; it fails at the division `violations / 0`.  For equal-length
inputs with `n ≥ 1` and a confidence level strictly between 0 and 1 (as the
default 0.05 is) no error occurs at all — the divisors `n`,
`confidence_level` and `1 - confidence_level` are all nonzero — and away
from the sentinel branch both Kupiec logarithm arguments are positive, so
every division and logarithm is well-defined. -/
theorem backtest_empty_and_welldef (lib : NumLib) (c : ℚ) :
    backtest_var lib ([] : List ℚ) [] c = .error .divisionByZero ∧
    (∀ r : BacktestReport, backtest_var lib ([] : List ℚ) [] c ≠ .ok r) ∧
    backtest_var lib ([] : List ℚ) [] c ≠ .error .dimensionMismatch ∧
    (∀ ret ve : List ℚ, ret.length = ve.length → 1 ≤ ret.length →
      0 < c → c < 1 →
      ∃ r : BacktestReport, backtest_var lib ret ve c = .ok r) ∧
    (∀ ret ve : List ℚ, ret.length = ve.length → 1 ≤ ret.length →
      0 < c → c < 1 →
      ¬(countViolations ret ve = 0 ∨ countViolations ret ve = ret.length) →
      0 < ((countViolations ret ve : ℚ) / (ret.length : ℚ)) / c ∧
      0 < (1 - (countViolations ret ve : ℚ) / (ret.length : ℚ)) / (1 - c)) := by
  have hempty : backtest_var lib ([] : List ℚ) [] c = .error .divisionByZero := by
    simp [backtest_var]
  refine ⟨hempty, ?_, ?_, ?_, ?_⟩
  · intro r h
    rw [hempty] at h
    simp at h
  · rw [hempty]
    simp
  · intro ret ve hlen hn hc0 hc1
    simp only [backtest_var]
    rw [if_neg (by omega), if_neg (by omega)]
    simp only [mkBacktestReport]
    by_cases hdeg : countViolations ret ve = 0 ∨
        countViolations ret ve = ret.length
    · rw [if_pos hdeg]
      exact ⟨_, rfl⟩
    · rw [if_neg hdeg,
        if_neg (fun h => h.elim (fun h0 => by linarith) (fun h1 => by linarith))]
      exact ⟨_, rfl⟩
  · intro ret ve hlen hn hc0 hc1 hdeg
    push_neg at hdeg
    obtain ⟨hv0, hvn⟩ := hdeg
    have hvle : countViolations ret ve ≤ ret.length :=
      countViolations_le_length ret ve
    have hvpos : 0 < countViolations ret ve := Nat.pos_of_ne_zero hv0
    have hvlt : countViolations ret ve < ret.length := lt_of_le_of_ne hvle hvn
    have hnQ : (0:ℚ) < (ret.length : ℚ) := by
      exact_mod_cast (by omega : 0 < ret.length)
    have hvQ : (0:ℚ) < (countViolations ret ve : ℚ) := by exact_mod_cast hvpos
    have hrate_pos : 0 < (countViolations ret ve : ℚ) / (ret.length : ℚ) :=
      div_pos hvQ hnQ
    have hrate_lt : (countViolations ret ve : ℚ) / (ret.length : ℚ) < 1 := by
      rw [div_lt_one hnQ]
      exact_mod_cast hvlt
    exact ⟨div_pos hrate_pos hc0, div_pos (by linarith) (by linarith)⟩

/-- A two-observation backtest input with exactly one violation. -/
def btRetW : List ℚ := [-1, 1]

/-- The matching VaR estimates: zero for both observations. -/
def btVeW : List ℚ := [0, 0]

/-- Witness for C10: the empty call at the default confidence level, and a
two-observation call instantiating the well-definedness part. -/
theorem backtest_empty_and_welldef_witness :
    backtest_var testLib ([] : List ℚ) [] (1/20) = .error .divisionByZero ∧
    btRetW.length = btVeW.length ∧ 1 ≤ btRetW.length ∧
    (0:ℚ) < 1/20 ∧ (1:ℚ)/20 < 1 ∧
    (∃ r : BacktestReport,
      backtest_var testLib btRetW btVeW (1/20) = .ok r) ∧
    ¬(countViolations btRetW btVeW = 0 ∨
        countViolations btRetW btVeW = btRetW.length) ∧
    (0 < ((countViolations btRetW btVeW : ℚ) / (btRetW.length : ℚ)) / (1/20) ∧
     0 < (1 - (countViolations btRetW btVeW : ℚ) / (btRetW.length : ℚ)) /
       (1 - 1/20)) := by
  have h := backtest_empty_and_welldef testLib (1/20)
  have hdeg : ¬(countViolations btRetW btVeW = 0 ∨
      countViolations btRetW btVeW = btRetW.length) := by
    with_unfolding_all decide
  exact ⟨h.1, by decide, by decide, by norm_num, by norm_num,
    h.2.2.2.1 btRetW btVeW (by decide) (by decide) (by norm_num) (by norm_num),
    hdeg,
    h.2.2.2.2 btRetW btVeW (by decide) (by decide) (by norm_num) (by norm_num)
      hdeg⟩

theorem dotQ_eq_indexed : ∀ (w row : List ℚ), row.length = w.length →
    dotQ row w =
      ((List.range w.length).map (fun j => row.getD j 0 * w.getD j 0)).sum
  | [], row, h => by
      have hrow : row = [] := List.length_eq_zero.mp h
      subst hrow
      simp [dotQ]
  | wh :: wt, [], h => by simp at h
  | wh :: wt, rh :: rt, h => by
      have hlen : rt.length = wt.length := by simpa using h
      have ih := dotQ_eq_indexed wt rt hlen
      rw [dotQ, List.zipWith_cons_cons, List.sum_cons]
      rw [show (List.zipWith (· * ·) rt wt).sum = dotQ rt wt from rfl, ih]
      rw [List.length_cons, List.range_succ_eq_map]
      rw [List.map_cons, List.sum_cons, List.map_map]
      simp only [List.getD_cons_zero, List.getD_cons_succ]
      have hmaps : List.map (fun j => rt.getD j 0 * wt.getD j 0)
            (List.range wt.length) =
          List.map ((fun j => (rh :: rt).getD j 0 * (wh :: wt).getD j 0) ∘
            Nat.succ) (List.range wt.length) := by
        apply List.map_congr_left
        intro j hj
        simp [Function.comp]
      rw [hmaps]

/-- C8: the portfolio VaR raises the dimension-mismatch error exactly when
the number of weights differs from the column count; otherwise, for a
confidence level with `confidenceLevel*100` in the percentile range
`[0, 100]` (as the default 0.05 is) and a matrix with at least one
observation row, it returns the linear-interpolated
`confidenceLevel*100`-th percentile of the matrix-vector product of the
rows with the unnormalized weight vector. -/
theorem portfolio_var_spec (w : List ℚ) (m : RMatrix) (c : ℚ) :
    (calculate_portfolio_var w m c = .error .dimensionMismatch ↔
      w.length ≠ m.ncols) ∧
    (w.length = m.ncols → 0 ≤ c → c ≤ 1 → m.rows ≠ [] →
      calculate_portfolio_var w m c =
        .ok (percentile (m.rows.map (fun row =>
          ((List.range m.ncols).map (fun j => row.getD j 0 * w.getD j 0)).sum))
          (c * 100))) := by
  constructor
  · constructor
    · intro h
      by_cases hw : w.length = m.ncols
      · exfalso
        simp only [calculate_portfolio_var] at h
        rw [if_neg (by simp [hw])] at h
        by_cases hq : c * 100 < 0 ∨ 100 < c * 100
        · rw [if_pos hq] at h
          simp at h
        · rw [if_neg hq] at h
          by_cases hr : m.rows = []
          · rw [if_pos hr] at h
            simp at h
          · rw [if_neg hr] at h
            simp at h
      · exact hw
    · intro hw
      simp only [calculate_portfolio_var]
      rw [if_pos hw]
  · intro hw hc0 hc1 hr
    simp only [calculate_portfolio_var]
    rw [if_neg (by simp [hw]),
      if_neg (fun h => h.elim (fun h0 => by linarith) (fun h1 => by linarith)),
      if_neg hr]
    have hmap : m.rows.map (fun row => dotQ row w) =
        m.rows.map (fun row => ((List.range m.ncols).map
          (fun j => row.getD j 0 * w.getD j 0)).sum) := by
      apply List.map_congr_left
      intro row hrow
      have hrl : row.length = w.length := by rw [m.wf row hrow, hw]
      rw [dotQ_eq_indexed w row hrl, hw]
    rw [hmap]

/-- The spec test matrix: five observations of two identical asset
columns. -/
def exMatrix : RMatrix :=
  ⟨[[-2/100, -2/100], [1/100, 1/100], [3/100, 3/100],
    [-1/100, -1/100], [2/100, 2/100]], 2, by decide⟩

/-- Witness for C8 at equal weights `[0.5, 0.5]` over `exMatrix` at the 5%
level. -/
theorem portfolio_var_spec_witness :
    ([1/2, 1/2] : List ℚ).length = exMatrix.ncols ∧
    (0:ℚ) ≤ 1/20 ∧ (1:ℚ)/20 ≤ 1 ∧ exMatrix.rows ≠ [] ∧
    (calculate_portfolio_var [1/2, 1/2] exMatrix (1/20) =
        .error .dimensionMismatch ↔
      ([1/2, 1/2] : List ℚ).length ≠ exMatrix.ncols) ∧
    calculate_portfolio_var [1/2, 1/2] exMatrix (1/20) =
      .ok (percentile (exMatrix.rows.map (fun row =>
        ((List.range exMatrix.ncols).map
          (fun j => row.getD j 0 * ([1/2, 1/2] : List ℚ).getD j 0)).sum))
        ((1/20) * 100)) :=
  ⟨by decide, by norm_num, by norm_num, by decide,
   (portfolio_var_spec _ exMatrix _).1,
   (portfolio_var_spec _ exMatrix _).2 (by decide) (by norm_num) (by norm_num)
     (by decide)⟩
